import Mathlib

/-!
Shallow embedding of `vispy/visuals/visual.py` (class `Visual`).

The Python class keeps three pieces of mutable state that the verified
claims are about:

* `_gl_state`  : a `dict` mapping option names to values, initialised to
  `{'preset': None}` and mutated by `set_gl_state` / `update_gl_state`;
* `_filters`   : a `set` of attached filter objects (membership is by
  object identity, modelled here by a numeric id);
* `_hooks`     : a `dict` from `(shader, name)` keys to `StatementList`
  chains, lazily filled by `_get_hook`.

Python dicts are modelled as association lists with insertion-order
semantics (`dictInsert` replaces the first binding of an existing key in
place, otherwise appends at the end, exactly like `d[k] = v`).  Chain
objects (`StatementList`) have identity in Python; identity is modelled by
allocating consecutive numeric ids from a per-visual counter, so "the same
object" means "the same id and no new allocation happened".

Exceptions are modelled with `Except`; because Python exceptions propagate
out of a method after any mutations already made, an error value carries
the visual state at the moment of the raise.
-/

/-- A Python value stored in the `_gl_state` dict (enough constructors for
the values the class actually receives: `None`, strings, numbers, bools). -/
inductive PyVal where
  | none
  | str (s : String)
  | nat (n : Nat)
  | bool (b : Bool)
deriving DecidableEq, Repr

/-- Lookup in a Python dict modelled as an association list: the value of
the first binding of `k` (bindings are unique in a real dict). -/
def dictLookup {α : Type} : List (String × α) → String → Option α
  | [], _ => Option.none
  | (k', v) :: rest, k => if k' = k then Option.some v else dictLookup rest k

/-- `d[k] = v` on a Python dict: replace the first binding of `k` in place
(keeping its position), otherwise append the new binding at the end. -/
def dictInsert {α : Type} : List (String × α) → String → α → List (String × α)
  | [], k, v => [(k, v)]
  | (k', v') :: rest, k, v =>
      if k' = k then (k, v) :: rest else (k', v') :: dictInsert rest k v

/-- `d.update(kw)` on a Python dict: insert every binding of `kw` in order. -/
def dictUpdate {α : Type} (d : List (String × α)) (kw : List (String × α)) :
    List (String × α) :=
  kw.foldl (fun acc p => dictInsert acc p.1 p.2) d

/-- The last binding of `k` in a keyword-argument list (Python keyword
arguments have unique keys, so this is simply the binding when present). -/
def kwLast {α : Type} : List (String × α) → String → Option α
  | [], _ => Option.none
  | (k', v) :: rest, k =>
      match kwLast rest k with
      | Option.some w => Option.some w
      | Option.none => if k' = k then Option.some v else Option.none

/-- A compiled shader program collaborator (`self._program`): `prog.vert`
and `prog.frag` are dicts from slot names to the bound chain (by id). -/
structure Program where
  vert : List (String × Nat)
  frag : List (String × Nat)
deriving DecidableEq, Repr

/-- The error conditions the class raises, by the spec's taxonomy:
`invalidArgument` models both the failed `assert` in `_get_hook` and the
`TypeError` in `update_gl_state`; `notSupported` models the
`NotImplementedError` whose message carries the `(shader, name)` key;
`notFound` models the `KeyError` from `set.remove` in `detach`. -/
inductive VisualError where
  | invalidArgument
  | notSupported (stage position : String)
  | notFound
deriving DecidableEq, Repr

/-- The state of one `Visual` instance.  `nextHookId` is the allocator for
chain identities; `hooks` maps `(shader, name)` keys to chain ids. -/
structure Visual where
  visible : Bool
  glState : List (String × PyVal)
  filters : Finset Nat
  hooks : List ((String × String) × Nat)
  program : Option Program
  nextHookId : Nat
deriving DecidableEq

/-- `Visual.__init__`: `_gl_state = {'preset': None}`, `_filters = set()`,
`_hooks = {}`.  `_program` is not set by `__init__` (subclasses may set
it), so it is a parameter here; `getattr(self, '_program', None)` reads it. -/
def mkVisual (program : Option Program) : Visual :=
  { visible := true
    glState := [("preset", PyVal.none)]
    filters := ∅
    hooks := []
    program := program
    nextHookId := 0 }

/-- Lookup in the `_hooks` dict (keys are `(shader, name)` pairs). -/
def hookLookup : List ((String × String) × Nat) → String × String → Option Nat
  | [], _ => Option.none
  | (k', h) :: rest, k => if k' = k then Option.some h else hookLookup rest k

/-- `Visual.set_gl_state(preset=None, **kwargs)`:
`self._gl_state = kwargs; self._gl_state['preset'] = preset`.
`kwargs` is the fresh dict built from the keyword arguments (Python
guarantees it cannot contain the key `preset`, which binds the named
parameter instead). -/
def set_gl_state (v : Visual) (preset : PyVal) (kwargs : List (String × PyVal)) :
    Visual :=
  { v with glState := dictInsert (dictUpdate [] kwargs) "preset" preset }

/-- `Visual.update_gl_state(*args, **kwargs)`: one positional argument
overwrites `_gl_state['preset']`; two or more raise `TypeError` before any
mutation; finally `self._gl_state.update(kwargs)`. -/
def update_gl_state (v : Visual) (args : List PyVal)
    (kwargs : List (String × PyVal)) : Except (VisualError × Visual) Visual :=
  match args with
  | [] => Except.ok { v with glState := dictUpdate v.glState kwargs }
  | [a] => Except.ok
      { v with glState := dictUpdate (dictInsert v.glState "preset" a) kwargs }
  | _ => Except.error (VisualError.invalidArgument, v)

/-- `Visual.draw(transforms)` base behaviour: forward the whole
`_gl_state` mapping to the backend call `gloo.set_state(**self._gl_state)`. -/
def draw (v : Visual) : List (String × PyVal) :=
  v.glState

/-- `Visual.bounds(mode, axis)` base behaviour: always `None`. -/
def bounds (_v : Visual) (_mode : String) (_axis : Nat) :
    Option (Int × Int) :=
  Option.none

/-- `Visual._get_hook(shader, name)`:

```
assert name in ('pre', 'post')
key = (shader, name)
if key in self._hooks: return self._hooks[key]
prog = getattr(self, '_program', None)
if prog is None: raise NotImplementedError(... % key)
hook = StatementList()
if shader == 'vert': prog.vert[name] = hook
elif shader == 'frag': prog.frag[name] = hook
self._hooks[key] = hook
return hook
```

Returns the chain id together with the updated visual.  A fresh
`StatementList()` is modelled by allocating `v.nextHookId`. -/
def getHook (v : Visual) (shader name : String) :
    Except (VisualError × Visual) (Nat × Visual) :=
  if name = "pre" ∨ name = "post" then
    match hookLookup v.hooks (shader, name) with
    | Option.some h => Except.ok (h, v)
    | Option.none =>
        match v.program with
        | Option.none =>
            Except.error (VisualError.notSupported shader name, v)
        | Option.some prog =>
            let hook := v.nextHookId
            let prog' :=
              if shader = "vert" then
                { prog with vert := dictInsert prog.vert name hook }
              else if shader = "frag" then
                { prog with frag := dictInsert prog.frag name hook }
              else prog
            Except.ok (hook,
              { v with
                  program := Option.some prog'
                  hooks := v.hooks ++ [((shader, name), hook)]
                  nextHookId := v.nextHookId + 1 })
  else Except.error (VisualError.invalidArgument, v)

/-- A Filter collaborator: identity plus the `_attach` / `_detach`
callbacks.  A callback receives the visual, may mutate it and may raise
(the error carries the state at the raise). -/
structure VFilter where
  id : Nat
  onAttach : Visual → Except (VisualError × Visual) Visual
  onDetach : Visual → Except (VisualError × Visual) Visual

/-- `Visual.attach(filter)`: `filter._attach(self); self._filters.add(filter)`.
The callback runs first; only on its normal return is the filter recorded. -/
def attach (v : Visual) (f : VFilter) : Except (VisualError × Visual) Visual :=
  match f.onAttach v with
  | Except.error e => Except.error e
  | Except.ok v' => Except.ok { v' with filters := insert f.id v'.filters }

/-- `Visual.detach(filter)`: `self._filters.remove(filter)` (raises
`KeyError` when the filter is not a member, before anything else runs),
then `filter._detach(self)` on the visual with the filter removed. -/
def detach (v : Visual) (f : VFilter) : Except (VisualError × Visual) Visual :=
  if f.id ∈ v.filters then
    f.onDetach { v with filters := v.filters.erase f.id }
  else Except.error (VisualError.notFound, v)

/-- One `set_gl_state` / `update_gl_state` call in a history of render
state operations. -/
inductive GLOp where
  | setState (preset : PyVal) (kwargs : List (String × PyVal))
  | updateState (args : List PyVal) (kwargs : List (String × PyVal))

/-- Apply one render-state operation.  A failed `update_gl_state` raises
before mutating, so the carried error state is the unchanged visual. -/
def applyGLOp (v : Visual) (op : GLOp) : Visual :=
  match op with
  | GLOp.setState p kw => set_gl_state v p kw
  | GLOp.updateState args kw =>
      match update_gl_state v args kw with
      | Except.ok v' => v'
      | Except.error (_, v') => v'

/-- Run a history of render-state operations from a given visual. -/
def runGLOps (v : Visual) (ops : List GLOp) : Visual :=
  ops.foldl applyGLOp v

/-- The first option when it is present, otherwise the fallback. -/
def orDefault {α : Type} (o : Option α) (d : Option α) : Option α :=
  match o with
  | Option.some w => Option.some w
  | Option.none => d

/-- An empty compiled program collaborator, for concrete instantiations. -/
def emptyProgram : Program :=
  { vert := [], frag := [] }

/-- A visual that already owns a chain (id 0) for the key ("frag", "post"). -/
def vHooked : Visual :=
  { mkVisual Option.none with hooks := [(("frag", "post"), 0)], nextHookId := 1 }

/-- A filter whose callbacks succeed without touching the visual. -/
def idVFilter (n : Nat) : VFilter :=
  { id := n
    onAttach := fun v => Except.ok v
    onDetach := fun v => Except.ok v }

/-- A filter whose callbacks raise `e`, leaving the visual unchanged. -/
def failVFilter (n : Nat) (e : VisualError) : VFilter :=
  { id := n
    onAttach := fun v => Except.error (e, v)
    onDetach := fun v => Except.error (e, v) }

/-! ### Association-list lemmas -/

theorem dictLookup_dictInsert {α : Type} (d : List (String × α)) (k k' : String)
    (v : α) :
    dictLookup (dictInsert d k v) k' =
      if k' = k then Option.some v else dictLookup d k' := by
  induction d with
  | nil =>
      by_cases h : k' = k
      · simp [dictInsert, dictLookup, h]
      · simp [dictInsert, dictLookup, h, Ne.symm h]
  | cons p rest ih =>
      obtain ⟨k₀, v₀⟩ := p
      by_cases hk : k₀ = k <;> by_cases hk' : k' = k <;>
        by_cases hk₀ : k₀ = k' <;>
        simp_all [dictInsert, dictLookup]

theorem dictLookup_dictUpdate {α : Type} (kw : List (String × α))
    (d : List (String × α)) (k : String) :
    dictLookup (dictUpdate d kw) k = orDefault (kwLast kw k) (dictLookup d k) := by
  induction kw generalizing d with
  | nil => simp [dictUpdate, kwLast, orDefault]
  | cons p rest ih =>
      obtain ⟨k₀, v₀⟩ := p
      have hstep : dictUpdate d ((k₀, v₀) :: rest) =
          dictUpdate (dictInsert d k₀ v₀) rest := rfl
      rw [hstep, ih]
      cases hr : kwLast rest k with
      | some w => simp [kwLast, hr, orDefault]
      | none =>
          by_cases h : k₀ = k
          · simp [kwLast, hr, orDefault, dictLookup_dictInsert, h]
          · simp [kwLast, hr, orDefault, dictLookup_dictInsert, h, Ne.symm h]

theorem dictLookup_eq_none_iff {α : Type} (d : List (String × α)) (k : String) :
    dictLookup d k = Option.none ↔ k ∉ d.map Prod.fst := by
  induction d with
  | nil => simp [dictLookup]
  | cons p rest ih =>
      obtain ⟨k₀, v₀⟩ := p
      by_cases h : k₀ = k
      · simp [dictLookup, h]
      · simp [dictLookup, h, Ne.symm h, ih]

theorem keys_dictInsert {α : Type} (d : List (String × α)) (k : String) (v : α) :
    (dictInsert d k v).map Prod.fst =
      if (dictLookup d k).isSome then d.map Prod.fst
      else d.map Prod.fst ++ [k] := by
  induction d with
  | nil => simp [dictInsert, dictLookup]
  | cons p rest ih =>
      obtain ⟨k₀, v₀⟩ := p
      by_cases h : k₀ = k
      · simp_all [dictInsert, dictLookup]
      · simp_all [dictInsert, dictLookup]
        split <;> rfl

theorem nodup_keys_dictInsert {α : Type} (d : List (String × α)) (k : String)
    (v : α) (h : (d.map Prod.fst).Nodup) :
    ((dictInsert d k v).map Prod.fst).Nodup := by
  rw [keys_dictInsert]
  cases hl : dictLookup d k with
  | none =>
      simp only [hl, Option.isSome_none, Bool.false_eq_true, if_false]
      have hk : k ∉ d.map Prod.fst := (dictLookup_eq_none_iff d k).mp hl
      simp [List.nodup_append, h, hk]
  | some w => simpa [hl] using h

theorem nodup_keys_dictUpdate {α : Type} (kw : List (String × α))
    (d : List (String × α)) (h : (d.map Prod.fst).Nodup) :
    ((dictUpdate d kw).map Prod.fst).Nodup := by
  induction kw generalizing d with
  | nil => simpa [dictUpdate] using h
  | cons p rest ih =>
      exact ih (dictInsert d p.1 p.2) (nodup_keys_dictInsert d p.1 p.2 h)

/-! ### The render-state invariant -/

/-- The invariant the spec states for the effective render-state mapping:
the reserved key `preset` is bound, and no key is bound twice (so no
override entry collides with the stored preset entry). -/
def glInv (st : List (String × PyVal)) : Prop :=
  (dictLookup st "preset").isSome ∧ (st.map Prod.fst).Nodup

theorem glInv_mkVisual (prog : Option Program) : glInv (mkVisual prog).glState := by
  constructor <;> simp [mkVisual, dictLookup]

theorem glInv_set_gl_state (v : Visual) (p : PyVal)
    (kw : List (String × PyVal)) : glInv (set_gl_state v p kw).glState := by
  constructor
  · simp [set_gl_state, dictLookup_dictInsert]
  · exact nodup_keys_dictInsert _ _ _
      (nodup_keys_dictUpdate kw [] (by simp))

theorem glInv_applyGLOp (v : Visual) (op : GLOp) (h : glInv v.glState) :
    glInv (applyGLOp v op).glState := by
  obtain ⟨hp, hn⟩ := h
  cases op with
  | setState p kw => exact glInv_set_gl_state v p kw
  | updateState args kw =>
      match args with
      | [] =>
          constructor
          · rw [applyGLOp]
            show (dictLookup (dictUpdate v.glState kw) "preset").isSome
            rw [dictLookup_dictUpdate]
            cases hr : kwLast kw "preset" <;> simp_all [orDefault]
          · exact nodup_keys_dictUpdate kw v.glState hn
      | [a] =>
          constructor
          · rw [applyGLOp]
            show (dictLookup (dictUpdate (dictInsert v.glState "preset" a) kw)
                "preset").isSome
            rw [dictLookup_dictUpdate]
            cases hr : kwLast kw "preset" <;>
              simp_all [orDefault, dictLookup_dictInsert]
          · exact nodup_keys_dictUpdate kw _ (nodup_keys_dictInsert _ _ _ hn)
      | a :: b :: rest => exact ⟨hp, hn⟩

theorem glInv_runGLOps (v : Visual) (ops : List GLOp) (h : glInv v.glState) :
    glInv (runGLOps v ops).glState := by
  induction ops generalizing v with
  | nil => exact h
  | cons op rest ih => exact ih (applyGLOp v op) (glInv_applyGLOp v op h)

/-! ### The claims -/

/-- C1: for every stage and every position in {pre, post}, on a Visual
where a chain already exists for the key (stage, position), `_get_hook`
returns that very chain (same identity) with the visual unchanged; hence a
second call with identical arguments returns the identical chain object,
not a copy, and creates no new chain (the hook dict and the identity
allocator are untouched). -/
theorem C1_get_hook_idempotent (v : Visual) (shader name : String) (h : Nat)
    (hname : name = "pre" ∨ name = "post")
    (hmem : hookLookup v.hooks (shader, name) = Option.some h) :
    getHook v shader name = Except.ok (h, v) ∧
    (∀ h₁ v₁, getHook v shader name = Except.ok (h₁, v₁) →
      getHook v₁ shader name = Except.ok (h₁, v₁) ∧
      v₁.hooks = v.hooks ∧ v₁.nextHookId = v.nextHookId) := by
  have h1 : getHook v shader name = Except.ok (h, v) := by
    unfold getHook
    rw [if_pos hname, hmem]
  refine ⟨h1, ?_⟩
  intro h₁ v₁ hcall
  rw [h1] at hcall
  simp only [Except.ok.injEq, Prod.mk.injEq] at hcall
  obtain ⟨rfl, rfl⟩ := hcall
  exact ⟨h1, rfl, rfl⟩

theorem C1_get_hook_idempotent_witness :
    getHook vHooked "frag" "post" = Except.ok (0, vHooked) :=
  (C1_get_hook_idempotent vHooked "frag" "post" 0 (Or.inr rfl) rfl).1

/-- C2: for every position in {pre, post} and every stage, on a Visual
with no compiled-program collaborator and no existing chain for the key,
`_get_hook` raises `NotImplementedError` (the spec's NotSupported) whose
payload carries the stage and the position, and records no chain: the
carried state is the unchanged visual. -/
theorem C2_get_hook_no_program (v : Visual) (shader name : String)
    (hname : name = "pre" ∨ name = "post")
    (hmem : hookLookup v.hooks (shader, name) = Option.none)
    (hprog : v.program = Option.none) :
    getHook v shader name =
      Except.error (VisualError.notSupported shader name, v) := by
  unfold getHook
  rw [if_pos hname, hmem, hprog]

theorem C2_get_hook_no_program_witness :
    getHook (mkVisual Option.none) "vert" "pre" =
      Except.error (VisualError.notSupported "vert" "pre",
        mkVisual Option.none) :=
  C2_get_hook_no_program (mkVisual Option.none) "vert" "pre" (Or.inl rfl) rfl rfl

/-- C6: for every stage and every position outside {pre, post}, the
`assert name in ('pre', 'post')` at the top of `_get_hook` fails (the
spec's InvalidArgument for a bad enum value) before anything else runs, so
the hook registry — indeed the whole visual — is unchanged. -/
theorem C6_get_hook_bad_position (v : Visual) (shader name : String)
    (hname : ¬(name = "pre" ∨ name = "post")) :
    getHook v shader name = Except.error (VisualError.invalidArgument, v) := by
  unfold getHook
  rw [if_neg hname]

theorem C6_get_hook_bad_position_witness :
    getHook (mkVisual Option.none) "frag" "mid" =
      Except.error (VisualError.invalidArgument, mkVisual Option.none) :=
  C6_get_hook_bad_position (mkVisual Option.none) "frag" "mid" (by decide)

/-- C10: for every stage value outside {vert, frag} and every position in
{pre, post}, on a Visual that has a program and no existing chain for the
key, `_get_hook` silently succeeds: it allocates a fresh chain, records it
in the hook dict under the unrecognized key, returns it, and binds it into
no stage slot — the program field is unchanged, because both the
`shader == 'vert'` and the `shader == 'frag'` branches are skipped and the
stage value is never validated. -/
theorem C10_get_hook_unknown_stage (v : Visual) (shader name : String)
    (prog : Program)
    (hshader : shader ≠ "vert" ∧ shader ≠ "frag")
    (hname : name = "pre" ∨ name = "post")
    (hmem : hookLookup v.hooks (shader, name) = Option.none)
    (hprog : v.program = Option.some prog) :
    getHook v shader name = Except.ok (v.nextHookId,
      { v with hooks := v.hooks ++ [((shader, name), v.nextHookId)],
               nextHookId := v.nextHookId + 1 }) := by
  unfold getHook
  rw [if_pos hname, hmem, hprog]
  simp [hshader.1, hshader.2, hprog]

theorem C10_get_hook_unknown_stage_witness :
    getHook (mkVisual (Option.some emptyProgram)) "geom" "pre" =
      Except.ok (0, { mkVisual (Option.some emptyProgram) with
        hooks := [(("geom", "pre"), 0)], nextHookId := 1 }) :=
  C10_get_hook_unknown_stage (mkVisual (Option.some emptyProgram)) "geom" "pre"
    emptyProgram (by decide) (Or.inl rfl) rfl rfl

/-- C3: for every filter not currently a member of the visual's attachment
set, `detach` fails with the NotFound condition (`set.remove` raises
`KeyError` before anything else runs) and the visual is unchanged.  The
statement holds for every `onDetach` callback the filter may carry and its
conclusion does not depend on that callback, so the detachment callback is
never invoked on this path. -/
theorem C3_detach_not_member (v : Visual) (f : VFilter)
    (h : f.id ∉ v.filters) :
    detach v f = Except.error (VisualError.notFound, v) := by
  unfold detach
  rw [if_neg h]

theorem C3_detach_not_member_witness :
    detach (mkVisual Option.none) (idVFilter 5) =
      Except.error (VisualError.notFound, mkVisual Option.none) :=
  C3_detach_not_member (mkVisual Option.none) (idVFilter 5) (by decide)

/-- C8: `attach` invokes the filter's attachment callback on the visual
first and records the filter only afterwards: when the callback raises,
`attach` propagates exactly the callback's error and state, inserting
nothing (so if the callback did not record the filter, the filter is not a
member of the resulting state); when the callback returns normally,
`attach` returns the callback's resulting visual with the filter id
inserted into its membership set. -/
theorem C8_attach_callback_first (v : Visual) (f : VFilter) :
    (∀ e v', f.onAttach v = Except.error (e, v') →
      attach v f = Except.error (e, v')) ∧
    (∀ e v', f.onAttach v = Except.error (e, v') → f.id ∉ v'.filters →
      ∀ p, attach v f = Except.error p → f.id ∉ p.2.filters) ∧
    (∀ v', f.onAttach v = Except.ok v' →
      attach v f = Except.ok { v' with filters := insert f.id v'.filters }) := by
  have herr : ∀ e v', f.onAttach v = Except.error (e, v') →
      attach v f = Except.error (e, v') := by
    intro e v' h
    unfold attach
    rw [h]
  refine ⟨herr, ?_, ?_⟩
  · intro e v' h hmem p hp
    rw [herr e v' h] at hp
    simp only [Except.error.injEq] at hp
    rw [← hp]
    exact hmem
  · intro v' h
    unfold attach
    rw [h]

theorem C8_attach_callback_first_witness :
    attach (mkVisual Option.none) (failVFilter 3 VisualError.invalidArgument) =
      Except.error (VisualError.invalidArgument, mkVisual Option.none) :=
  (C8_attach_callback_first (mkVisual Option.none)
    (failVFilter 3 VisualError.invalidArgument)).1
    VisualError.invalidArgument (mkVisual Option.none) rfl

/-- C4: `update_gl_state` with two or more positional values raises
`TypeError` (the spec's InvalidArgument) with the stored configuration
unchanged; with zero positional values it succeeds and merges the keyword
map into the existing state (new values win on identical keys, omitted
keys keep their prior values); with one positional value it additionally
overwrites the stored `preset` key before the merge. -/
theorem C4_update_gl_state_arity (v : Visual) (a b : PyVal)
    (rest : List PyVal) (kw : List (String × PyVal)) :
    update_gl_state v (a :: b :: rest) kw =
      Except.error (VisualError.invalidArgument, v) ∧
    (∃ v', update_gl_state v [] kw = Except.ok v' ∧
      ∀ k, dictLookup v'.glState k =
        orDefault (kwLast kw k) (dictLookup v.glState k)) ∧
    (∃ v', update_gl_state v [a] kw = Except.ok v' ∧
      ∀ k, dictLookup v'.glState k =
        orDefault (kwLast kw k)
          (if k = "preset" then Option.some a else dictLookup v.glState k)) := by
  refine ⟨rfl, ⟨_, rfl, ?_⟩, ⟨_, rfl, ?_⟩⟩
  · intro k
    exact dictLookup_dictUpdate kw v.glState k
  · intro k
    show dictLookup (dictUpdate (dictInsert v.glState "preset" a) kw) k = _
    rw [dictLookup_dictUpdate, dictLookup_dictInsert]

/-- C5: `set_gl_state` fully redefines the configuration: afterwards the
effective mapping binds exactly the reserved key `preset` to the supplied
preset and every other key to its binding in the supplied keyword map —
no key or value of the prior configuration survives (the result is the
same starting from any prior visual). -/
theorem C5_set_gl_state_replaces (v : Visual) (preset : PyVal)
    (kw : List (String × PyVal)) :
    (∀ k, dictLookup (set_gl_state v preset kw).glState k =
      if k = "preset" then Option.some preset else kwLast kw k) ∧
    (∀ w : Visual,
      (set_gl_state v preset kw).glState = (set_gl_state w preset kw).glState) := by
  constructor
  · intro k
    show dictLookup (dictInsert (dictUpdate [] kw) "preset" preset) k = _
    rw [dictLookup_dictInsert]
    by_cases h : k = "preset"
    · rw [if_pos h, if_pos h]
    · rw [if_neg h, if_neg h, dictLookup_dictUpdate]
      cases kwLast kw k <;> simp [orDefault, dictLookup]
  · intro w
    rfl

/-- C7: after every sequence of `set_gl_state` / `update_gl_state`
operations from construction (failed updates raise before mutating), the
effective configuration is the override mapping with the preset stored
under the reserved key `preset`: the reserved key is bound, and no key is
bound twice, so no override entry other than the stored preset entry
carries the reserved name. -/
theorem C7_render_state_invariant (prog : Option Program) (ops : List GLOp) :
    (dictLookup (runGLOps (mkVisual prog) ops).glState "preset").isSome ∧
    ((runGLOps (mkVisual prog) ops).glState.map Prod.fst).Nodup :=
  glInv_runGLOps (mkVisual prog) ops (glInv_mkVisual prog)

/-- C9: the reserved key `preset` is always bound: it is bound at
construction (to None), `set_gl_state` always re-binds it,
`update_gl_state` never removes an existing binding (in both its success
and its error outcome), and `draw` therefore always forwards a mapping
containing the `preset` key to the backend `gloo.set_state` call. -/
theorem C9_preset_always_present :
    (∀ prog, dictLookup (mkVisual prog).glState "preset" =
      Option.some PyVal.none) ∧
    (∀ v preset kw, dictLookup (set_gl_state v preset kw).glState "preset" =
      Option.some preset) ∧
    (∀ v args kw k, (dictLookup v.glState k).isSome →
      (dictLookup (applyGLOp v (GLOp.updateState args kw)).glState k).isSome) ∧
    (∀ prog ops,
      (dictLookup (draw (runGLOps (mkVisual prog) ops)) "preset").isSome) := by
  refine ⟨?_, ?_, ?_, ?_⟩
  · intro prog
    rfl
  · intro v preset kw
    show dictLookup (dictInsert (dictUpdate [] kw) "preset" preset) "preset" = _
    rw [dictLookup_dictInsert]
    simp
  · intro v args kw k h
    match args with
    | [] =>
        show (dictLookup (dictUpdate v.glState kw) k).isSome
        rw [dictLookup_dictUpdate]
        cases hr : kwLast kw k <;> simp_all [orDefault]
    | [a] =>
        show (dictLookup (dictUpdate (dictInsert v.glState "preset" a) kw)
          k).isSome
        rw [dictLookup_dictUpdate, dictLookup_dictInsert]
        cases hr : kwLast kw k <;> by_cases hk : k = "preset" <;>
          simp_all [orDefault]
    | a :: b :: rest => exact h
  · intro prog ops
    exact (glInv_runGLOps (mkVisual prog) ops (glInv_mkVisual prog)).1

theorem C9_preset_always_present_witness :
    (dictLookup (applyGLOp (mkVisual Option.none)
      (GLOp.updateState [] [("blend", PyVal.bool true)])).glState
      "preset").isSome :=
  C9_preset_always_present.2.2.1 (mkVisual Option.none) []
    [("blend", PyVal.bool true)] "preset" (by decide)
